import Mathlib

/-!
Verification of the bento-pro-generator prompt pipeline (src/app.py,
src/generate_thumbnails.py) against its natural-language specification.

The Python code is shallowly embedded: Python strings are Lean `String`
(with the character-level work done on `List Char` via `String.data`),
Python dicts used as lookup tables are association lists, the two AI
capability calls and the wall clock are oracles supplied through an
environment record, raised exceptions are modelled with `Except`/`Option`,
and the S3 record store is a list of performed writes (respectively a
key-to-value function for the edit page).
-/

/- ### Python string primitives (str.strip, str.split, str.startswith, `in`) -/

/-- Whitespace as Python's `str.strip()` removes it (space, tab, newline,
carriage return, vertical tab, form feed). -/
def isPyWs (c : Char) : Bool :=
  c = ' ' || c = '\t' || c = '\n' || c = '\r' || c = '\x0b' || c = '\x0c'

/-- Drop leading Python whitespace. -/
def trimLeftL (l : List Char) : List Char := l.dropWhile isPyWs

/-- Drop trailing Python whitespace. -/
def trimRightL (l : List Char) : List Char := (l.reverse.dropWhile isPyWs).reverse

/-- Python `str.strip()` on a character list. -/
def stripL (l : List Char) : List Char := trimRightL (trimLeftL l)

/-- Python `str.strip()`. -/
def pyStrip (s : String) : String := ⟨stripL s.data⟩

/-- Python `sep in s` (substring containment), fail-fast scan. -/
def containsSub : List Char → List Char → Bool
  | sep, [] => sep.isEmpty
  | sep, c :: cs => sep.isPrefixOf (c :: cs) || containsSub sep cs

/-- Python `needle in hay` on strings. -/
def containsStr (needle hay : String) : Bool := containsSub needle.data hay.data

/-- Worker for Python `str.split(sep)` (non-empty `sep`): scan left to right,
cutting at each non-overlapping occurrence of `sep`. The fuel argument (one
unit per character examined, supplied as the input length by `splitOnL`)
only makes the recursion structural. -/
def splitGo (sep : List Char) : Nat → List Char → List Char → List (List Char)
  | _, [], acc => [acc.reverse]
  | 0, c :: cs, acc => [acc.reverse ++ (c :: cs)]
  | f + 1, c :: cs, acc =>
    if sep.isPrefixOf (c :: cs) then
      acc.reverse :: splitGo sep f ((c :: cs).drop sep.length) []
    else
      splitGo sep f cs (c :: acc)

/-- Python `s.split(sep)` on character lists (Python raises on an empty
separator; every use in the source passes a non-empty one). -/
def splitOnL (sep l : List Char) : List (List Char) :=
  if sep = [] then [l] else splitGo sep l.length l []

/- ### Style Catalog (src/app.py lines 589-642 radio options, 754-791 and
856-860 lookup tables) -/

/-- The option set of the `background` radio (src/app.py line 589). -/
def backgroundOptions : List String := ["白背景", "黒背景", "木目テーブル", "大理石", "和紙"]

/-- The option set of the `angle` radio (line 597). -/
def angleOptions : List String := ["斜め45度", "真上俯瞰"]

/-- The option set of the `lighting` radio (line 605). -/
def lightingOptions : List String := ["明るいスタジオ", "柔らか自然光", "ドラマチック"]

/-- The option set of the `margin` radio (line 613). -/
def marginOptions : List String := ["標準", "広い"]

/-- The option set of the `aspect_ratio` radio (line 621). -/
def aspectRatioOptions : List String := ["正方形(1:1)", "縦長(3:4)", "横長(4:3)"]

/-- The option set of the `rotation` radio (line 629). -/
def rotationOptions : List String := ["正面配置", "斜め配置"]

/-- The option set of the `container_clean` radio (line 637). -/
def containerCleanOptions : List String := ["補正なし", "容器汚れを補正"]

/-- `background_map` (src/app.py lines 754-760). -/
def background_map : List (String × String) :=
  [("白背景", "clean white background"),
   ("黒背景", "matte black background"),
   ("木目テーブル", "natural wood grain table surface"),
   ("大理石", "elegant marble table surface"),
   ("和紙", "traditional Japanese washi paper background")]

/-- `angle_map` (lines 763-766). -/
def angle_map : List (String × String) :=
  [("斜め45度", "The camera is positioned at a moderate height above the table, looking down at the bento box at approximately 30-40 degrees from horizontal. This angle shows both the top surface of the food AND the front vertical side wall of the container clearly, creating depth while maintaining visibility of contents."),
   ("真上俯瞰", "The camera is positioned DIRECTLY overhead at 90 degrees, perfectly perpendicular to the table surface. Pure bird's eye view looking STRAIGHT DOWN. NO angle whatsoever - completely flat, top-down perspective.")]

/-- `rotation_map` (lines 769-778): each label maps to a (rule, description)
pair. -/
def rotation_map : List (String × (String × String)) :=
  [("正面配置",
    ("**[Crucial: Orientation & Alignment]**\n* The bento box is NOT rotated diagonally on the table surface.\n* The edges of the box are perfectly parallel to the frame edges (top edge parallel to top of frame, sides parallel to sides of frame).\n* NO rotation whatsoever. The box maintains a straight, unrotated position.",
     "The box faces the camera squarely.")),
   ("斜め配置",
    ("**[Crucial: Orientation & Alignment]**\n* The bento box IS rotated diagonally on the table surface.\n* The box is tilted approximately 45 degrees CLOCKWISE (from viewer's perspective).\n* One corner of the box points towards the top of the frame, creating a diamond-like orientation.",
     "Creates dynamic diagonal depth."))]

/-- `lighting_map` (lines 781-785). -/
def lighting_map : List (String × String) :=
  [("明るいスタジオ", "Bright, even studio lighting (high-key). Soft shadows. The food looks fresh, glossy, vibrant, and appetizing."),
   ("柔らか自然光", "Soft, natural window light. Gentle shadows. The food looks fresh, natural, and inviting."),
   ("ドラマチック", "Dramatic side lighting with strong shadows. The food looks bold, artistic, and textured.")]

/-- `margin_map` (lines 788-791). -/
def margin_map : List (String × String) :=
  [("標準", "With some negative space around the bento box. A little breathing room on the table surface. Not cropped tightly. Centered composition. The entire bento box must fit completely within the frame with NO edges cut off."),
   ("広い", "Ample negative space. Vast empty table surface surrounding the bento box. Minimalist composition with lots of empty space. Long shot. The bento box is small in the center of the large frame. The entire bento box must fit completely within the frame with NO edges cut off.")]

/-- `aspect_ratio_prompt_map` (lines 856-860). -/
def aspect_ratio_prompt_map : List (String × String) :=
  [("正方形(1:1)", "**[Output Format]**\nGenerate the output image in SQUARE format with 1:1 aspect ratio (width equals height)."),
   ("縦長(3:4)", "**[Output Format]**\nGenerate the output image in PORTRAIT/VERTICAL format with 3:4 aspect ratio (width:height = 3:4, taller than wide)."),
   ("横長(4:3)", "**[Output Format]**\nGenerate the output image in LANDSCAPE/HORIZONTAL format with 4:3 aspect ratio (width:height = 4:3, wider than tall).")]

/- ### Prompt Composer (src/app.py lines 793-863) -/

/-- One label chosen per style axis (the seven radio selections). -/
structure StyleSelection where
  background : String
  angle : String
  lighting : String
  margin : String
  aspect_ratio : String
  rotation : String
  container_clean : String

/-- Every axis value is a member of its enumerated option set. -/
def StyleSelection.valid (s : StyleSelection) : Prop :=
  s.background ∈ backgroundOptions ∧ s.angle ∈ angleOptions ∧
  s.lighting ∈ lightingOptions ∧ s.margin ∈ marginOptions ∧
  s.aspect_ratio ∈ aspectRatioOptions ∧ s.rotation ∈ rotationOptions ∧
  s.container_clean ∈ containerCleanOptions

/-- `container_clean_instruction` (lines 820-828): set to the cleaning text
only when `container_clean == "汚れを補正"`, otherwise the empty string. -/
def container_clean_instruction (container_clean : String) : String :=
  if container_clean = "汚れを補正" then
    "\nCONTAINER CLEANING:\n- Clean any sauce stains, oil marks, or liquid spills on the bento box container surfaces (walls, edges, exterior)\n- The container should look pristine and clean\n- CRITICAL: Do NOT alter, change, or modify the food contents inside the compartments\n- Only clean the container itself, not the food\n"
  else ""

/-- `camera_setup` (line 800). -/
def camera_setup_of (angleText : String) : String :=
  "**[Camera Angle & Perspective]**\n* " ++ angleText

/-- `environment` (line 803). -/
def environment_of (bgText marginText : String) : String :=
  "**[Environment & Composition]**\n* The bento box is placed on a " ++ bgText ++ ".\n* " ++ marginText

/-- `lighting_section` (line 806). -/
def lighting_section_of (lightText : String) : String :=
  "**[Lighting & Style]**\n* " ++ lightText ++ "\n* NO steam, NO vapor. 8k resolution, highly detailed."

/-- `content_part` (line 809). -/
def content_part_of (analyzed_content : String) : String :=
  "**[Contents Description]**\n" ++ analyzed_content

/-- `final_prompt` (line 812): the informational prompt, rule → camera →
environment → lighting → contents. -/
def final_prompt_of (rotation_rule camera_setup environment lighting_section content_part : String) : String :=
  "Professional commercial food photography.\n\n" ++ rotation_rule ++ "\n\n" ++ camera_setup ++ "\n\n" ++ environment ++ "\n\n" ++ lighting_section ++ "\n\n" ++ content_part

/-- `reference_prompt` (lines 831-850): the image-referencing generation
prompt with the two prepended hard constraints. -/
def reference_prompt_of (rotation_rule camera_setup environment lighting_section container_clean_instr analyzed_content : String) : String :=
  "\nRefine this specific image into a professional commercial food photography style.\n\n**CRITICAL CONSTRAINTS - MUST FOLLOW EXACTLY:**\n1. Keep the EXACT container type, material, color, and shape shown in the input image.\n2. Keep the EXACT food arrangement and portion sizes shown in the input image. Do NOT add extra food.\n\n" ++ rotation_rule ++ "\n\n" ++ camera_setup ++ "\n\n" ++ environment ++ "\n\n" ++ lighting_section ++ "\n\n" ++ container_clean_instr ++ "\n\n**[Contents Description]**\n" ++ analyzed_content ++ "\n"

/-- The composition stage (lines 793-863): looks up every selected label in
its table (a missing key is Python's `KeyError`, modelled as `none`) and
returns `(final_prompt, reference_prompt_with_aspect)` — the informational
prompt and the generation prompt with the aspect-ratio clause appended. -/
def composePrompts (sel : StyleSelection) (analyzed_content : String) : Option (String × String) :=
  match background_map.lookup sel.background, angle_map.lookup sel.angle,
        rotation_map.lookup sel.rotation, lighting_map.lookup sel.lighting,
        margin_map.lookup sel.margin, aspect_ratio_prompt_map.lookup sel.aspect_ratio with
  | some bgText, some angleText, some rotEntry, some lightText, some marginText, some aspectText =>
    let rotation_rule := rotEntry.1
    let camera_setup := camera_setup_of angleText
    let environment := environment_of bgText marginText
    let lighting_section := lighting_section_of lightText
    let content_part := content_part_of analyzed_content
    let final_prompt := final_prompt_of rotation_rule camera_setup environment lighting_section content_part
    let cci := container_clean_instruction sel.container_clean
    let reference_prompt := reference_prompt_of rotation_rule camera_setup environment lighting_section cci analyzed_content
    some (final_prompt, reference_prompt ++ "\n\n" ++ aspectText)
  | _, _, _, _, _, _ => none

/- ### Section headers of the composed prompts -/

/-- Header line of the orientation rule (both `rotation_map` rules open with it). -/
def orientationHeader : String := "**[Crucial: Orientation & Alignment]**"

/-- Header line of the camera-angle section. -/
def cameraHeader : String := "**[Camera Angle & Perspective]**"

/-- Header line of the environment/composition section. -/
def environmentHeader : String := "**[Environment & Composition]**"

/-- Header line of the lighting section. -/
def lightingHeader : String := "**[Lighting & Style]**"

/-- Header line of the contents-description section. -/
def contentsHeader : String := "**[Contents Description]**"

/-- `needle` occurs in `hay` at substring index `i`. -/
def occursAt (needle hay : String) (i : Nat) : Prop :=
  needle.data <+: hay.data.drop i

/- ### C1: the container-cleanup instruction -/

/-- A concrete selection with the cleanup-requested option of the
`container_clean` radio. -/
def cleanupSel : StyleSelection :=
  { background := "白背景", angle := "真上俯瞰", lighting := "明るいスタジオ",
    margin := "標準", aspect_ratio := "正方形(1:1)", rotation := "正面配置",
    container_clean := "容器汚れを補正" }

/- ### JSON values and a model of Python's json.loads -/

/-- A parsed JSON value. Numbers keep their lexeme (the pipeline's metadata
uses only strings and arrays of strings, so numeric value identity is not
needed). -/
inductive PyJson where
  | null
  | bool (b : Bool)
  | num (lexeme : String)
  | str (s : String)
  | arr (elems : List PyJson)
  | obj (members : List (String × PyJson))

/-- JSON whitespace (as skipped by the json.loads grammar). -/
def isJsonWs (c : Char) : Bool := c = ' ' || c = '\t' || c = '\n' || c = '\r'

/-- Skip JSON whitespace. -/
def skipWsL (l : List Char) : List Char := l.dropWhile isJsonWs

/-- Body of a JSON string after its opening quote; returns the decoded
characters and the remainder after the closing quote. `\uXXXX` escapes are
not modelled (no claim exercises them). -/
def parseJStrGo : List Char → List Char → Option (List Char × List Char)
  | _, [] => none
  | acc, c :: cs =>
    if c = '"' then some (acc.reverse, cs)
    else if c = '\\' then
      match cs with
      | [] => none
      | e :: cs2 =>
        if e = '"' then parseJStrGo ('"' :: acc) cs2
        else if e = '\\' then parseJStrGo ('\\' :: acc) cs2
        else if e = '/' then parseJStrGo ('/' :: acc) cs2
        else if e = 'n' then parseJStrGo ('\n' :: acc) cs2
        else if e = 't' then parseJStrGo ('\t' :: acc) cs2
        else if e = 'r' then parseJStrGo ('\r' :: acc) cs2
        else if e = 'b' then parseJStrGo ('\x08' :: acc) cs2
        else if e = 'f' then parseJStrGo ('\x0c' :: acc) cs2
        else none
    else if c.val < 32 then none
    else parseJStrGo (c :: acc) cs

/-- One or more digits, then nothing. -/
def allDigits1 : List Char → Bool
  | [] => false
  | d :: ds => d.isDigit && ds.all Char.isDigit

/-- Optional exponent part of a JSON number, then end. -/
def expTail : List Char → Bool
  | [] => true
  | c :: cs =>
    (c == 'e' || c == 'E') &&
      (match cs with
       | s :: cs2 => if s == '+' || s == '-' then allDigits1 cs2 else allDigits1 (s :: cs2)
       | [] => false)

/-- Optional fraction then optional exponent of a JSON number, then end. -/
def fracExpTail : List Char → Bool
  | [] => true
  | c :: cs =>
    if c = '.' then
      (match cs with
       | d :: _ => d.isDigit && expTail (cs.dropWhile Char.isDigit)
       | [] => false)
    else expTail (c :: cs)

/-- Whether a lexeme is a well-formed JSON number. -/
def validNum (l : List Char) : Bool :=
  let l1 := match l with | '-' :: cs => cs | _ => l
  match l1 with
  | c :: cs =>
    c.isDigit && (if c = '0' then fracExpTail cs else fracExpTail (cs.dropWhile Char.isDigit))
  | [] => false

/-- Characters a JSON number lexeme may use. -/
def isNumChar (c : Char) : Bool :=
  c.isDigit || c = '-' || c = '+' || c = '.' || c = 'e' || c = 'E'

/-- Parse a JSON number lexeme at the head of the input. -/
def parseJNum (l : List Char) : Option (PyJson × List Char) :=
  let span := l.takeWhile isNumChar
  if validNum span then some (.num ⟨span⟩, l.dropWhile isNumChar) else none

mutual

/-- Recursive-descent JSON value parser (fuel-indexed; `jsonLoads` supplies
enough fuel for any input). -/
def parseJVal : Nat → List Char → Option (PyJson × List Char)
  | 0, _ => none
  | _ + 1, [] => none
  | f + 1, c :: cs =>
    if c = '{' then
      match skipWsL cs with
      | '}' :: r => some (.obj [], r)
      | r => (parseJMembers f r).map (fun m => (.obj m.1, m.2))
    else if c = '[' then
      match skipWsL cs with
      | ']' :: r => some (.arr [], r)
      | r => (parseJElems f r).map (fun e => (.arr e.1, e.2))
    else if c = '"' then (parseJStrGo [] cs).map (fun s => (.str ⟨s.1⟩, s.2))
    else if c = 't' then
      (if ['r', 'u', 'e'].isPrefixOf cs then some (.bool true, cs.drop 3) else none)
    else if c = 'f' then
      (if ['a', 'l', 's', 'e'].isPrefixOf cs then some (.bool false, cs.drop 4) else none)
    else if c = 'n' then
      (if ['u', 'l', 'l'].isPrefixOf cs then some (.null, cs.drop 3) else none)
    else parseJNum (c :: cs)

/-- Members of a JSON object (after `{` and whitespace, first key expected). -/
def parseJMembers : Nat → List Char → Option (List (String × PyJson) × List Char)
  | 0, _ => none
  | f + 1, l =>
    match l with
    | '"' :: cs =>
      match parseJStrGo [] cs with
      | some (k, rest) =>
        match skipWsL rest with
        | ':' :: rest2 =>
          match parseJVal f (skipWsL rest2) with
          | some (v, rest3) =>
            match skipWsL rest3 with
            | ',' :: rest4 =>
              (parseJMembers f (skipWsL rest4)).map (fun m => ((⟨k⟩, v) :: m.1, m.2))
            | '}' :: rest4 => some ([(⟨k⟩, v)], rest4)
            | _ => none
          | none => none
        | _ => none
      | none => none
    | _ => none

/-- Elements of a JSON array (after `[` and whitespace, first value expected). -/
def parseJElems : Nat → List Char → Option (List PyJson × List Char)
  | 0, _ => none
  | f + 1, l =>
    match parseJVal f l with
    | some (v, rest) =>
      match skipWsL rest with
      | ',' :: rest2 => (parseJElems f (skipWsL rest2)).map (fun e => (v :: e.1, e.2))
      | ']' :: rest2 => some ([v], rest2)
      | _ => none
    | none => none

end

/-- Model of `json.loads`: parse one JSON value surrounded by whitespace;
`none` models the `json.JSONDecodeError` exception. -/
def jsonLoads (s : String) : Option PyJson :=
  let l := skipWsL s.data
  match parseJVal (l.length + 1) l with
  | some (v, rest) => if skipWsL rest = [] then some v else none
  | none => none

/-- Python `metadata_dict[k]` on a parsed JSON value: `some` the value when
the parse produced an object holding key `k` (`none` models the exception
raised otherwise). On duplicate keys Python's dict keeps the last. -/
def jGet (j : PyJson) (k : String) : Option PyJson :=
  match j with
  | .obj kvs => kvs.reverse.lookup k
  | _ => none

/- ### Metadata extraction (src/app.py lines 735-743) -/

/-- Lines 737-743: strip the response, remove a fenced code block (with an
optional `json` language tag), strip again — the exact text handed to
`json.loads`. -/
def extract_metadata_text (raw : String) : String :=
  let metadata_text := stripL raw.data
  let metadata_text :=
    if ("```".data).isPrefixOf metadata_text then
      let piece := (splitOnL "```".data metadata_text).getD 1 []
      if ("json".data).isPrefixOf piece then piece.drop 4 else piece
    else metadata_text
  ⟨stripL metadata_text⟩

/-- Lines 737-743 followed by `json.loads` (line 743). -/
def extractAndLoad (raw : String) : Option PyJson :=
  jsonLoads (extract_metadata_text raw)

/-- A response wrapped in a fenced code block without a language tag. -/
def wrapFence (t : String) : String := "```\n" ++ t ++ "\n```"

/-- A response wrapped in a fenced code block with the `json` language tag. -/
def wrapFenceJson (t : String) : String := "```json\n" ++ t ++ "\n```"

/- ### PIL Image.thumbnail((400, 400)) (src/app.py lines 907-910,
src/generate_thumbnails.py lines 115-117) -/

/-- Pillow's `round_aspect`: of floor and ceiling the candidate with the
smaller key (floor on ties), but at least 1. Pillow computes with floats;
the reals are modelled exactly with rationals. -/
def round_aspect (number : ℚ) (key : ℤ → ℚ) : ℤ :=
  max (if key ⌊number⌋ ≤ key ⌈number⌉ then ⌊number⌋ else ⌈number⌉) 1

/-- The size Pillow's `Image.thumbnail((400, 400), LANCZOS)` gives a `w × h`
image: shrink to fit a 400×400 box preserving the aspect ratio; an image
already fitting is left untouched. -/
def thumbnailSize (w h : Nat) : Nat × Nat :=
  if 400 ≥ w ∧ 400 ≥ h then (w, h)
  else
    let aspect : ℚ := (w : ℚ) / (h : ℚ)
    if (400 : ℚ) / 400 ≥ aspect then
      ((round_aspect (400 * aspect) (fun n => |aspect - (n : ℚ) / 400|)).toNat, 400)
    else
      (400, (round_aspect (400 / aspect) (fun n => if n = 0 then 0 else |aspect - 400 / (n : ℚ)|)).toNat)

/-- An image: its pixel dimensions plus an opaque payload standing for the
pixel content. -/
structure PImage where
  width : Nat
  height : Nat
  content : String

/-- `generated_image.copy()` followed by `.thumbnail((400, 400), LANCZOS)`. -/
def thumbnailImage (img : PImage) : PImage :=
  { width := (thumbnailSize img.width img.height).1,
    height := (thumbnailSize img.width img.height).2,
    content := img.content }

/- ### Generation Orchestrator (src/app.py lines 654-955) -/

/-- The oracles of one generation request: what the two AI capabilities
return (`.error` models a raised exception), the identifier
`datetime.now().strftime(...)` produces, and the measured wall-clock spans. -/
structure Env where
  visionText : Except String String
  metadataText : Except String String
  genCandidates : Except String (List PImage)
  timestamp : String
  step1_time : Rat
  step3_time : Rat
  total_time : Rat

/-- The session flags the handler touches. -/
structure SessionState where
  processing : Bool
  generation_completed : Bool

/-- The persisted metadata record (src/app.py lines 913-931). -/
structure MetadataRecord where
  timestamp : String
  title : PyJson
  description : PyJson
  tags : PyJson
  favorite : Bool
  background : String
  angle : String
  lighting : String
  margin : String
  aspect_ratio : String
  rotation : String
  container_clean : String
  analyzed_content : String
  full_prompt : String
  step1_time : Rat
  step3_time : Rat
  total_time : Rat

/-- A value written to the record store. -/
inductive StoreVal where
  | image (img : PImage)
  | meta (m : MetadataRecord)

/-- What one click of "プロ写真に変換" leaves behind: final session flags, the
store writes performed, the message of the `except` handler (line 951), the
failure message of the empty-candidates branch (line 945), and what — if
anything — was passed to the image-generation capability. -/
structure RunOutcome where
  state : SessionState
  writes : List (String × StoreVal)
  errorMsg : Option String
  failMsg : Option String
  sentGenPrompt : Option String
  generationCalled : Bool
  selectedHistory : Option String

/-- The "プロ写真に変換" click handler (lines 654-955): `processing := True`,
then the three pipeline steps inside `try:`; any raised exception reaches the
trailing `except Exception` (line 950), which shows an error message and
clears the processing flag. The store helpers catch `ClientError` internally
(lines 50-84), so persistence itself raises nothing. -/
def runPipeline (env : Env) (sel : StyleSelection) (upload : PImage)
    (s0 : SessionState) : RunOutcome :=
  let s1 : SessionState := { s0 with processing := true }
  let caught : String → RunOutcome := fun e =>
    { state := { s1 with processing := false },
      writes := [], errorMsg := some ("エラーが発生しました: " ++ e),
      failMsg := none, sentGenPrompt := none, generationCalled := false,
      selectedHistory := none }
  match env.visionText with
  | .error e => caught e
  | .ok vtext =>
    let analyzed_content := pyStrip vtext
    match env.metadataText with
    | .error e => caught e
    | .ok mtext =>
      match extractAndLoad mtext with
      | none => caught "json.JSONDecodeError"
      | some metadata_dict =>
        match jGet metadata_dict "title" with
        | none => caught "KeyError: title"
        | some _ =>
          match composePrompts sel analyzed_content with
          | none => caught "KeyError: style label"
          | some prompts =>
            match env.genCandidates with
            | .error e =>
              { caught e with sentGenPrompt := some prompts.2, generationCalled := true }
            | .ok [] =>
              { state := { s1 with processing := false },
                writes := [], errorMsg := none,
                failMsg := some "画像加工に失敗しました。もう一度お試しください。",
                sentGenPrompt := some prompts.2,
                generationCalled := true, selectedHistory := none }
            | .ok (generated_image :: _) =>
              let ts := env.timestamp
              let record : MetadataRecord :=
                { timestamp := ts,
                  title := (jGet metadata_dict "title").getD (.str "弁当"),
                  description := (jGet metadata_dict "description").getD (.str ""),
                  tags := (jGet metadata_dict "tags").getD (.arr []),
                  favorite := false,
                  background := sel.background, angle := sel.angle,
                  lighting := sel.lighting, margin := sel.margin,
                  aspect_ratio := sel.aspect_ratio, rotation := sel.rotation,
                  container_clean := sel.container_clean,
                  analyzed_content := analyzed_content,
                  full_prompt := prompts.1,
                  step1_time := env.step1_time, step3_time := env.step3_time,
                  total_time := env.total_time }
              { state := { processing := false, generation_completed := true },
                writes := [(ts ++ "/original.png", .image upload),
                           (ts ++ "/generated.png", .image generated_image),
                           (ts ++ "/thumbnail.png", .image (thumbnailImage generated_image)),
                           (ts ++ "/metadata.json", .meta record)],
                errorMsg := none, failMsg := none,
                sentGenPrompt := some prompts.2,
                generationCalled := true, selectedHistory := some ts }

/-- The metadata record among an outcome's writes, if any. -/
def writtenMetadata (o : RunOutcome) : Option MetadataRecord :=
  (o.writes.filterMap (fun kv => match kv.2 with | .meta m => some m | _ => none)).head?

/- ### Concrete pipeline inputs used by the counterexamples -/

/-- A concrete valid selection (cleanup not requested). -/
def plainSel : StyleSelection :=
  { background := "白背景", angle := "斜め45度", lighting := "柔らか自然光",
    margin := "広い", aspect_ratio := "横長(4:3)", rotation := "斜め配置",
    container_clean := "補正なし" }

/-- A concrete uploaded image. -/
def uploadImg : PImage := { width := 1000, height := 800, content := "original-photo" }

/-- A successful run's oracles: a fenced metadata response, one generation
candidate. -/
def okEnv : Env :=
  { visionText := .ok "A bento box with rice and salmon.",
    metadataText := .ok "```json\n\x7b\"title\": \"幕の内弁当\", \"description\": \"焼鮭弁当\", \"tags\": [\"和食\"]\x7d\n```",
    genCandidates := .ok [{ width := 800, height := 600, content := "generated" }],
    timestamp := "2025-01-01_12-00-00",
    step1_time := 5, step3_time := 9, total_time := 15 }

/-- The outcome of that successful run. -/
def okOutcome : RunOutcome :=
  runPipeline okEnv plainSel uploadImg { processing := false, generation_completed := false }

/-- The same oracles except the vision capability returns empty text. -/
def emptyAnalysisEnv : Env :=
  { okEnv with visionText := .ok "" }

/-- The outcome when the analysis text comes back empty. -/
def emptyAnalysisOutcome : RunOutcome :=
  runPipeline emptyAnalysisEnv plainSel uploadImg { processing := false, generation_completed := false }

/- ### History edit (src/app.py lines 349-432) -/

/-- Line 417: `[tag.strip() for tag in edited_tags_str.split(',') if tag.strip()]`. -/
def parseTags (edited_tags_str : String) : List String :=
  (((splitOnL ",".data edited_tags_str.data).map stripL).filter
    (fun t => !t.isEmpty)).map (fun t => (⟨t⟩ : String))

/-- Lines 420-423: overwrite exactly title, description, tags and favorite on
the loaded record. -/
def editMetadata (m : MetadataRecord) (edited_title edited_description edited_tags_str : String)
    (edited_favorite : Bool) : MetadataRecord :=
  { m with title := .str edited_title, description := .str edited_description,
           tags := .arr ((parseTags edited_tags_str).map .str),
           favorite := edited_favorite }

/-- The record store as the edit page sees it: a key-to-blob map. -/
def Store : Type := String → Option StoreVal

/-- An S3 `put_object`: overwrite one key. -/
def storePut (st : Store) (k : String) (v : StoreVal) : Store :=
  fun k2 => if k2 = k then some v else st k2

/-- The save handler (lines 415-426): read `{ts}/metadata.json`, update the
four mutable fields, write that one key back; nothing is written when the
record is missing (line 440 error path). -/
def editSave (st : Store) (ts edited_title edited_description edited_tags_str : String)
    (edited_favorite : Bool) : Store :=
  match st (ts ++ "/metadata.json") with
  | some (.meta m) =>
    storePut st (ts ++ "/metadata.json")
      (.meta (editMetadata m edited_title edited_description edited_tags_str edited_favorite))
  | _ => st

/-- A concrete record for the edit witness. -/
def sampleRecord : MetadataRecord :=
  { timestamp := "2025-01-01_12-00-00", title := .str "幕の内弁当",
    description := .str "焼鮭弁当", tags := .arr [.str "和食"], favorite := false,
    background := "白背景", angle := "斜め45度", lighting := "柔らか自然光",
    margin := "広い", aspect_ratio := "横長(4:3)", rotation := "斜め配置",
    container_clean := "補正なし", analyzed_content := "A bento box.",
    full_prompt := "prompt", step1_time := 5, step3_time := 9, total_time := 15 }

/-- A concrete store holding one record and its three image blobs. -/
def sampleStore : Store := fun k =>
  if k = "2025-01-01_12-00-00/metadata.json" then some (.meta sampleRecord)
  else if k = "2025-01-01_12-00-00/original.png" then some (.image uploadImg)
  else if k = "2025-01-01_12-00-00/generated.png" then some (.image uploadImg)
  else if k = "2025-01-01_12-00-00/thumbnail.png" then some (.image uploadImg)
  else none

/- ### C10: the duplicate-submission guard (src/app.py lines 155-160, 573-577, 653, 937) -/

/-- The two session flags the guard uses. -/
structure GuardState where
  current_uploaded_file : Option String
  generation_completed : Bool

/-- Lines 574-577: a new upload resets the completed flag only when its
filename differs from the remembered one (the file's content plays no part). -/
def onUpload (s : GuardState) (name : String) : GuardState :=
  if s.current_uploaded_file ≠ some name then
    { current_uploaded_file := some name, generation_completed := false }
  else s

/-- Line 937: a successful generation sets the completed flag. -/
def onComplete (s : GuardState) : GuardState :=
  { s with generation_completed := true }

/-- Line 653: the convert button is rendered only when a file is uploaded and
the completed flag is off. -/
def convertEnabled (uploaded : Bool) (s : GuardState) : Bool :=
  uploaded && !s.generation_completed

theorem data_append (s t : String) : (s ++ t).data = s.data ++ t.data := by
  cases s; cases t; rfl

theorem occursAt_of_data {n hay : String} {la lb : List Char}
    (h : hay.data = la ++ (n.data ++ lb)) : occursAt n hay la.length := by
  unfold occursAt
  rw [h, List.drop_left]
  exact ⟨lb, rfl⟩

/- ### Lookup helpers: a valid label always has a table entry -/

theorem bg_lookup {b : String} (h : b ∈ backgroundOptions) :
    ∃ v, background_map.lookup b = some v := by
  simp only [backgroundOptions, List.mem_cons, List.not_mem_nil, or_false] at h
  rcases h with h | h | h | h | h <;> subst h <;> exact ⟨_, rfl⟩

theorem angle_lookup {a : String} (h : a ∈ angleOptions) :
    ∃ v, angle_map.lookup a = some v := by
  simp only [angleOptions, List.mem_cons, List.not_mem_nil, or_false] at h
  rcases h with h | h <;> subst h <;> exact ⟨_, rfl⟩

theorem lighting_lookup {a : String} (h : a ∈ lightingOptions) :
    ∃ v, lighting_map.lookup a = some v := by
  simp only [lightingOptions, List.mem_cons, List.not_mem_nil, or_false] at h
  rcases h with h | h | h <;> subst h <;> exact ⟨_, rfl⟩

theorem margin_lookup {a : String} (h : a ∈ marginOptions) :
    ∃ v, margin_map.lookup a = some v := by
  simp only [marginOptions, List.mem_cons, List.not_mem_nil, or_false] at h
  rcases h with h | h <;> subst h <;> exact ⟨_, rfl⟩

theorem aspect_lookup {a : String} (h : a ∈ aspectRatioOptions) :
    ∃ v, aspect_ratio_prompt_map.lookup a = some v := by
  simp only [aspectRatioOptions, List.mem_cons, List.not_mem_nil, or_false] at h
  rcases h with h | h | h <;> subst h <;> exact ⟨_, rfl⟩

theorem rot_lookup {a : String} (h : a ∈ rotationOptions) :
    ∃ v tl, rotation_map.lookup a = some v ∧ v.1 = orientationHeader ++ tl := by
  simp only [rotationOptions, List.mem_cons, List.not_mem_nil, or_false] at h
  rcases h with h | h <;> subst h
  · exact ⟨_, "\n* The bento box is NOT rotated diagonally on the table surface.\n* The edges of the box are perfectly parallel to the frame edges (top edge parallel to top of frame, sides parallel to sides of frame).\n* NO rotation whatsoever. The box maintains a straight, unrotated position.", rfl, rfl⟩
  · exact ⟨_, "\n* The bento box IS rotated diagonally on the table surface.\n* The box is tilted approximately 45 degrees CLOCKWISE (from viewer's perspective).\n* One corner of the box points towards the top of the frame, creating a diamond-like orientation.", rfl, rfl⟩

theorem occursAt_of_take {n hay : String} {la : List Char}
    (h : ∃ lb, hay.data = la ++ (n.data ++ lb)) : occursAt n hay la.length := by
  obtain ⟨lb, hlb⟩ := h
  exact occursAt_of_data hlb

/-- In a string of the shape `p1 ++ h1 ++ t1 ++ h2 ++ t2 ++ h3 ++ t3 ++ h4 ++
t4 ++ h5 ++ t5` with the `h`-markers non-empty, the five markers occur at
strictly increasing substring indices. -/
theorem occurs_chain (p q r s t u v w x y z hay : String)
    (hhay : hay.data = p.data ++ (q.data ++ (r.data ++ (s.data ++ (t.data ++
      (u.data ++ (v.data ++ (w.data ++ (x.data ++ (y.data ++ z.data))))))))))
    (n1 : 0 < q.data.length) (n2 : 0 < s.data.length) (n3 : 0 < u.data.length)
    (n4 : 0 < w.data.length) (n5 : 0 < y.data.length) :
    ∃ i1 i2 i3 i4 i5, i1 < i2 ∧ i2 < i3 ∧ i3 < i4 ∧ i4 < i5 ∧
      occursAt q hay i1 ∧ occursAt s hay i2 ∧ occursAt u hay i3 ∧
      occursAt w hay i4 ∧ occursAt y hay i5 := by
  refine ⟨p.data.length,
    (p.data ++ q.data ++ r.data).length,
    (p.data ++ q.data ++ r.data ++ s.data ++ t.data).length,
    (p.data ++ q.data ++ r.data ++ s.data ++ t.data ++ u.data ++ v.data).length,
    (p.data ++ q.data ++ r.data ++ s.data ++ t.data ++ u.data ++ v.data ++ w.data ++ x.data).length,
    ?_, ?_, ?_, ?_,
    occursAt_of_take ⟨_, by rw [hhay]⟩,
    occursAt_of_take ⟨_, by rw [hhay]; simp only [List.append_assoc]; rfl⟩,
    occursAt_of_take ⟨_, by rw [hhay]; simp only [List.append_assoc]; rfl⟩,
    occursAt_of_take ⟨_, by rw [hhay]; simp only [List.append_assoc]; rfl⟩,
    occursAt_of_take ⟨_, by rw [hhay]; simp only [List.append_assoc]; rfl⟩⟩ <;>
  · simp only [List.length_append]
    omega

set_option maxRecDepth 8192 in
/-- C3: for every valid StyleSelection and every analysis text, in the
composed generation prompt the orientation-rule section occurs at a smaller
substring index than the camera-angle section, which occurs before the
environment/composition section, before the lighting section, before the
contents-description section. -/
theorem generation_prompt_section_order (sel : StyleSelection) (analyzed : String)
    (h : sel.valid) :
    ∃ fp rp i1 i2 i3 i4 i5,
      composePrompts sel analyzed = some (fp, rp) ∧
      i1 < i2 ∧ i2 < i3 ∧ i3 < i4 ∧ i4 < i5 ∧
      occursAt orientationHeader rp i1 ∧ occursAt cameraHeader rp i2 ∧
      occursAt environmentHeader rp i3 ∧ occursAt lightingHeader rp i4 ∧
      occursAt contentsHeader rp i5 := by
  obtain ⟨hb, hang, hlight, hmarg, hasp, hrot, -⟩ := h
  obtain ⟨bgText, hbg⟩ := bg_lookup hb
  obtain ⟨angleText, hangL⟩ := angle_lookup hang
  obtain ⟨rotEntry, rtl, hrotL, hrtl⟩ := rot_lookup hrot
  obtain ⟨lightText, hlL⟩ := lighting_lookup hlight
  obtain ⟨marginText, hmL⟩ := margin_lookup hmarg
  obtain ⟨aspectText, haL⟩ := aspect_lookup hasp
  have hcomp : composePrompts sel analyzed = some
      (final_prompt_of (orientationHeader ++ rtl) (camera_setup_of angleText)
        (environment_of bgText marginText) (lighting_section_of lightText)
        (content_part_of analyzed),
       reference_prompt_of (orientationHeader ++ rtl) (camera_setup_of angleText)
        (environment_of bgText marginText) (lighting_section_of lightText)
        (container_clean_instruction sel.container_clean) analyzed ++ "\n\n" ++ aspectText) := by
    simp only [composePrompts, hbg, hangL, hrotL, hlL, hmL, haL, hrtl]
  have hhay : (reference_prompt_of (orientationHeader ++ rtl) (camera_setup_of angleText)
      (environment_of bgText marginText) (lighting_section_of lightText)
      (container_clean_instruction sel.container_clean) analyzed ++ "\n\n" ++ aspectText).data =
      ("\nRefine this specific image into a professional commercial food photography style.\n\n**CRITICAL CONSTRAINTS - MUST FOLLOW EXACTLY:**\n1. Keep the EXACT container type, material, color, and shape shown in the input image.\n2. Keep the EXACT food arrangement and portion sizes shown in the input image. Do NOT add extra food.\n\n" : String).data ++
      (orientationHeader.data ++ ((rtl ++ "\n\n").data ++ (cameraHeader.data ++
      (("\n* " ++ angleText ++ "\n\n").data ++ (environmentHeader.data ++
      (("\n* The bento box is placed on a " ++ bgText ++ ".\n* " ++ marginText ++ "\n\n").data ++
      (lightingHeader.data ++ (("\n* " ++ lightText ++ "\n* NO steam, NO vapor. 8k resolution, highly detailed." ++ "\n\n" ++ container_clean_instruction sel.container_clean ++ "\n\n").data ++
      (contentsHeader.data ++ ("\n" ++ analyzed ++ "\n" ++ "\n\n" ++ aspectText).data))))))))) := by
    simp only [reference_prompt_of, camera_setup_of, environment_of, lighting_section_of]
    rw [show ("**[Camera Angle & Perspective]**\n* " : String) = cameraHeader ++ "\n* " from rfl,
        show ("**[Environment & Composition]**\n* The bento box is placed on a " : String) = environmentHeader ++ "\n* The bento box is placed on a " from rfl,
        show ("**[Lighting & Style]**\n* " : String) = lightingHeader ++ "\n* " from rfl,
        show ("\n\n**[Contents Description]**\n" : String) = "\n\n" ++ (contentsHeader ++ "\n") from rfl]
    simp only [data_append, List.append_assoc]
  obtain ⟨i1, i2, i3, i4, i5, o12, o23, o34, o45, hs1, hs2, hs3, hs4, hs5⟩ :=
    occurs_chain _ orientationHeader (rtl ++ "\n\n") cameraHeader
      ("\n* " ++ angleText ++ "\n\n") environmentHeader
      ("\n* The bento box is placed on a " ++ bgText ++ ".\n* " ++ marginText ++ "\n\n")
      lightingHeader
      ("\n* " ++ lightText ++ "\n* NO steam, NO vapor. 8k resolution, highly detailed." ++ "\n\n" ++ container_clean_instruction sel.container_clean ++ "\n\n")
      contentsHeader ("\n" ++ analyzed ++ "\n" ++ "\n\n" ++ aspectText) _
      hhay (by decide) (by decide) (by decide) (by decide) (by decide)
  exact ⟨_, _, i1, i2, i3, i4, i5, hcomp, o12, o23, o34, o45, hs1, hs2, hs3, hs4, hs5⟩

set_option maxRecDepth 100000 in
/-- C1: code bug. The `container_clean` radio offers "補正なし" and
"容器汚れを補正", but the code only inserts the cleanup instruction when the
selection equals "汚れを補正" — a label that is not an offered option. So the
cleanup-requested selection "容器汚れを補正" yields an empty cleanup
instruction, and the composed generation prompt contains no cleanup fragment,
contradicting the claim that it always does. -/
theorem cleanup_instruction_dead_code :
    container_clean_instruction "容器汚れを補正" = "" ∧
    container_clean_instruction "補正なし" = "" ∧
    cleanupSel.valid ∧
    ∃ fp rp, composePrompts cleanupSel "Sample bento." = some (fp, rp) ∧
      containsStr "CONTAINER CLEANING" rp = false := by
  refine ⟨rfl, rfl, by constructor <;> simp [backgroundOptions, angleOptions,
    lightingOptions, marginOptions, aspectRatioOptions, rotationOptions,
    containerCleanOptions, cleanupSel, StyleSelection.valid], _, _, rfl, by decide⟩

/- ### C6: determinism of prompt composition -/

/-- C6: prompt composition is deterministic — the embedding of lines 793-863
is a pure function of the selection and the analysis text (it reads no clock,
no randomness, no ambient state), so identical inputs give byte-identical
informational and generation prompts. -/
theorem compose_deterministic (s1 s2 : StyleSelection) (a1 a2 : String)
    (hs : s1 = s2) (ha : a1 = a2) :
    composePrompts s1 a1 = composePrompts s2 a2 := by
  rw [hs, ha]

theorem compose_deterministic_witness :
    composePrompts cleanupSel "Sample bento." = composePrompts cleanupSel "Sample bento." :=
  compose_deterministic cleanupSel cleanupSel "Sample bento." "Sample bento." rfl rfl

/- ### C8: every raised exception is caught at the top level -/

/-- C8: the handler always clears the processing flag before returning, and
whenever a pipeline stage raised — `errorMsg` set means the `except` handler
(line 950) fired and showed its user-facing message — no store write happened,
so no history record was persisted for the request. -/
theorem pipeline_exception_caught (env : Env) (sel : StyleSelection)
    (upload : PImage) (s0 : SessionState) :
    (runPipeline env sel upload s0).state.processing = false ∧
    ((runPipeline env sel upload s0).errorMsg.isSome →
      (runPipeline env sel upload s0).writes = []) := by
  unfold runPipeline
  repeat' split <;> (try simp)

/- ### C4: analysis failure handling -/

/-- C4 (amended): when the vision-analysis capability call raises, the
request fails — the error is caught, no prompt composition result is used,
the generation capability is never called and nothing is persisted. -/
theorem analysis_error_fatal (env : Env) (sel : StyleSelection)
    (upload : PImage) (s0 : SessionState) (e : String)
    (h : env.visionText = .error e) :
    (runPipeline env sel upload s0).errorMsg = some ("エラーが発生しました: " ++ e) ∧
    (runPipeline env sel upload s0).generationCalled = false ∧
    (runPipeline env sel upload s0).sentGenPrompt = none ∧
    (runPipeline env sel upload s0).writes = [] ∧
    (runPipeline env sel upload s0).state.processing = false := by
  unfold runPipeline
  rw [h]
  simp

theorem analysis_error_fatal_witness :
    ({ okEnv with visionText := .error "API error" } : Env).visionText = .error "API error" ∧
    (runPipeline { okEnv with visionText := .error "API error" } plainSel uploadImg
      { processing := false, generation_completed := false }).writes = [] :=
  ⟨rfl, (analysis_error_fatal { okEnv with visionText := .error "API error" } plainSel uploadImg
    { processing := false, generation_completed := false } "API error" rfl).2.2.2.1⟩

/-- C4 (counterexample): the code never checks the analysis text for
emptiness — with the vision call succeeding with empty text, the request
does not fail: the generation capability is called and a history record is
persisted. -/
theorem analysis_empty_not_fatal :
    emptyAnalysisEnv.visionText = .ok "" ∧
    emptyAnalysisOutcome.errorMsg = none ∧
    emptyAnalysisOutcome.generationCalled = true ∧
    emptyAnalysisOutcome.writes.length = 4 := by
  refine ⟨rfl, ?_, ?_, ?_⟩ <;> rfl

/- ### C2: the persisted full_prompt versus the instruction actually sent -/

/-- C2 (counterexample): in a successful run the metadata record's
`full_prompt` field (line 927 stores `final_prompt`) differs from the
instruction text actually passed to the image-generation capability
(line 869 passes `reference_prompt_with_aspect`). -/
theorem full_prompt_differs_from_sent :
    ∃ m p, writtenMetadata okOutcome = some m ∧
      okOutcome.sentGenPrompt = some p ∧ m.full_prompt ≠ p := by
  refine ⟨_, _, rfl, rfl, ?_⟩
  decide

/-- C2 (amended): whatever was persisted as `full_prompt` is the
informational prompt (`final_prompt`, the first component of the
composition), while the instruction sent to the generation capability is the
reference prompt with the aspect clause (the second component) — two
distinct strings, as the counterexample shows. -/
theorem full_prompt_is_informational (env : Env) (sel : StyleSelection)
    (upload : PImage) (s0 : SessionState) (vtext : String)
    (prompts : String × String) (m : MetadataRecord)
    (hv : env.visionText = .ok vtext)
    (hc : composePrompts sel (pyStrip vtext) = some prompts)
    (hm : writtenMetadata (runPipeline env sel upload s0) = some m) :
    m.full_prompt = prompts.1 ∧
    (runPipeline env sel upload s0).sentGenPrompt = some prompts.2 := by
  obtain ⟨vt, mt, gc, ts, t1, t3, tt⟩ := env
  subst hv
  simp only [runPipeline] at hm ⊢
  (try dsimp only at hm ⊢)
  rcases mt with e | mtext
  · simp [writtenMetadata] at hm
  (try dsimp only at hm ⊢)
  rcases hj : extractAndLoad mtext with - | md <;>
    (try rw [hj] at hm) <;> (try rw [hj]) <;> (try dsimp only at hm ⊢)
  · simp [writtenMetadata] at hm
  rcases ht : jGet md "title" with - | t <;>
    (try rw [ht] at hm) <;> (try rw [ht]) <;> (try dsimp only at hm ⊢)
  · simp [writtenMetadata] at hm
  rw [hc] at hm ⊢
  (try dsimp only at hm ⊢)
  rcases gc with e | cands
  · simp [writtenMetadata] at hm
  (try dsimp only at hm ⊢)
  rcases cands with - | ⟨g, rest⟩
  · simp [writtenMetadata] at hm
  · simp [writtenMetadata] at hm
    subst hm
    exact ⟨rfl, rfl⟩

theorem full_prompt_is_informational_witness :
    okOutcome.sentGenPrompt.isSome = true := by
  have h := full_prompt_is_informational okEnv plainSel uploadImg
    { processing := false, generation_completed := false }
    "A bento box with rice and salmon." _ _ rfl rfl rfl
  unfold okOutcome
  rw [h.2]
  rfl

theorem generation_prompt_section_order_witness :
    ∃ fp rp i1 i2 i3 i4 i5,
      composePrompts plainSel "Sample bento." = some (fp, rp) ∧
      i1 < i2 ∧ i2 < i3 ∧ i3 < i4 ∧ i4 < i5 ∧
      occursAt orientationHeader rp i1 ∧ occursAt cameraHeader rp i2 ∧
      occursAt environmentHeader rp i3 ∧ occursAt lightingHeader rp i4 ∧
      occursAt contentsHeader rp i5 :=
  generation_prompt_section_order plainSel "Sample bento." (by
    refine ⟨?_, ?_, ?_, ?_, ?_, ?_, ?_⟩ <;> decide)

/-- C7: editing title, description, tags and favorite touches only the
`metadata.json` key (so the three image blobs are untouched), and inside the
record every other field — timestamp, the seven style-selection fields,
analyzed_content, full_prompt and the three timing fields — keeps its value. -/
theorem edit_preserves_frame (st : Store) (ts t d tg : String) (f : Bool)
    (m : MetadataRecord) (hload : st (ts ++ "/metadata.json") = some (.meta m)) :
    (∀ k, k ≠ ts ++ "/metadata.json" → editSave st ts t d tg f k = st k) ∧
    ∃ m2, editSave st ts t d tg f (ts ++ "/metadata.json") = some (.meta m2) ∧
      m2.title = .str t ∧ m2.description = .str d ∧
      m2.tags = .arr ((parseTags tg).map .str) ∧ m2.favorite = f ∧
      m2.timestamp = m.timestamp ∧ m2.background = m.background ∧
      m2.angle = m.angle ∧ m2.lighting = m.lighting ∧ m2.margin = m.margin ∧
      m2.aspect_ratio = m.aspect_ratio ∧ m2.rotation = m.rotation ∧
      m2.container_clean = m.container_clean ∧
      m2.analyzed_content = m.analyzed_content ∧ m2.full_prompt = m.full_prompt ∧
      m2.step1_time = m.step1_time ∧ m2.step3_time = m.step3_time ∧
      m2.total_time = m.total_time := by
  unfold editSave
  rw [hload]
  constructor
  · intro k hk
    simp [storePut, hk]
  · refine ⟨editMetadata m t d tg f, ?_, rfl, rfl, rfl, rfl, rfl, rfl, rfl, rfl,
      rfl, rfl, rfl, rfl, rfl, rfl, rfl, rfl, rfl⟩
    simp [storePut]

theorem edit_preserves_frame_witness :
    (editSave sampleStore "2025-01-01_12-00-00" "新タイトル" "新説明" "肉, 魚" true)
        "2025-01-01_12-00-00/original.png" =
      sampleStore "2025-01-01_12-00-00/original.png" ∧
    ∃ m2, (editSave sampleStore "2025-01-01_12-00-00" "新タイトル" "新説明" "肉, 魚" true)
        ("2025-01-01_12-00-00" ++ "/metadata.json") = some (.meta m2) ∧
      m2.full_prompt = sampleRecord.full_prompt := by
  have h := edit_preserves_frame sampleStore "2025-01-01_12-00-00" "新タイトル" "新説明"
    "肉, 魚" true sampleRecord (by rfl)
  refine ⟨h.1 "2025-01-01_12-00-00/original.png" (by decide), ?_⟩
  obtain ⟨m2, hm2, -, -, -, -, -, -, -, -, -, -, -, -, -, hfp, -, -, -⟩ := h.2
  exact ⟨m2, hm2, hfp⟩

theorem onUpload_same_kept {s : GuardState} {f : String}
    (h : s.current_uploaded_file = some f) : onUpload s f = s := by
  simp [onUpload, h]

/-- C10: after a generation completes for the remembered filename `f`, any
sequence of further uploads all named `f` keeps the convert action
suppressed, and one upload re-enables it exactly when its name differs
from `f`. -/
theorem duplicate_guard_keyed_on_filename (s : GuardState) (f : String)
    (hcur : s.current_uploaded_file = some f) :
    (∀ l : List String, (∀ n ∈ l, n = f) →
      convertEnabled true (l.foldl onUpload (onComplete s)) = false) ∧
    (∀ n, convertEnabled true (onUpload (onComplete s) n) = true ↔ n ≠ f) := by
  have hstep : ∀ (l : List String) (s2 : GuardState),
      s2.current_uploaded_file = some f → s2.generation_completed = true →
      (∀ n ∈ l, n = f) →
      (l.foldl onUpload s2).current_uploaded_file = some f ∧
      (l.foldl onUpload s2).generation_completed = true := by
    intro l
    induction l with
    | nil => intro s2 h1 h2 _; exact ⟨h1, h2⟩
    | cons a rest ih =>
      intro s2 h1 h2 hall
      have ha : a = f := hall a (List.mem_cons_self a rest)
      subst ha
      rw [List.foldl_cons, onUpload_same_kept h1]
      exact ih s2 h1 h2 (fun n hn => hall n (List.mem_cons_of_mem a hn))
  constructor
  · intro l hall
    have := hstep l (onComplete s) (by simp [onComplete, hcur]) (by simp [onComplete]) hall
    simp [convertEnabled, this.2]
  · intro n
    by_cases hn : n = f
    · subst hn
      rw [onUpload_same_kept (by simp [onComplete, hcur])]
      simp [convertEnabled, onComplete]
    · have : (onComplete s).current_uploaded_file ≠ some n := by
        simp [onComplete, hcur]
        exact fun hfn => hn hfn.symm
      simp [onUpload, this, convertEnabled, hn]

theorem duplicate_guard_keyed_on_filename_witness :
    convertEnabled true
      ([("bento.jpg" : String)].foldl onUpload
        (onComplete { current_uploaded_file := some "bento.jpg", generation_completed := false })) = false ∧
    (convertEnabled true
      (onUpload (onComplete { current_uploaded_file := some "bento.jpg", generation_completed := false })
        "other.jpg") = true ↔ ("other.jpg" : String) ≠ "bento.jpg") := by
  have h := duplicate_guard_keyed_on_filename
    { current_uploaded_file := some "bento.jpg", generation_completed := false } "bento.jpg" rfl
  exact ⟨h.1 ["bento.jpg"] (by simp), h.2 "other.jpg"⟩

/- ### C9: thumbnail bounds -/

theorem round_aspect_bounds (number : ℚ) (key : ℤ → ℚ) (hpos : 0 < number) :
    1 ≤ round_aspect number key ∧
    round_aspect number key ≤ max ⌈number⌉ 1 ∧
    |((round_aspect number key : ℤ) : ℚ) - number| ≤ 1 := by
  unfold round_aspect
  have hf : (⌊number⌋ : ℚ) ≤ number := Int.floor_le number
  have hf2 : number < ⌊number⌋ + 1 := Int.lt_floor_add_one number
  have hc : number ≤ (⌈number⌉ : ℚ) := Int.le_ceil number
  have hc2 : (⌈number⌉ : ℚ) < number + 1 := Int.ceil_lt_add_one number
  have hc1 : 1 ≤ ⌈number⌉ := Int.ceil_pos.mpr hpos
  split
  · rcases le_or_lt 1 ⌊number⌋ with h1 | h1
    · rw [max_eq_left h1]
      refine ⟨h1, le_max_of_le_left (Int.floor_le_ceil number), ?_⟩
      rw [abs_le]
      constructor <;> push_cast <;> linarith
    · rw [max_eq_right h1.le]
      have hlt1 : number < 1 := by
        have h0 : ⌊number⌋ ≤ 0 := by omega
        have : (⌊number⌋ : ℚ) ≤ 0 := by exact_mod_cast h0
        linarith
      refine ⟨le_refl 1, le_max_right _ _, ?_⟩
      rw [abs_le]
      constructor <;> push_cast <;> linarith
  · rw [max_eq_left hc1]
    refine ⟨hc1, le_refl _, ?_⟩
    rw [abs_le]
    constructor <;> push_cast <;> linarith

/-- C9: for any source image of positive dimensions, the thumbnail's two
sides are both at most 400 pixels (so its longer side is), and its aspect
ratio matches the source within rounding: either the image was small enough
to be kept as is, or the fixed side is 400 and the scaled side differs from
exact proportionality `400·w/h` (resp. `400·h/w`) by at most one pixel
(stated integrally: `|x·h − 400·w| ≤ h`, resp. `|y·w − 400·h| ≤ w`). -/
theorem thumbnail_longest_side_and_aspect (img : PImage)
    (hw : 1 ≤ img.width) (hh : 1 ≤ img.height) :
    (thumbnailImage img).width ≤ 400 ∧ (thumbnailImage img).height ≤ 400 ∧
    (((thumbnailImage img).width = img.width ∧ (thumbnailImage img).height = img.height) ∨
     ((thumbnailImage img).height = 400 ∧
       |((thumbnailImage img).width : ℚ) * img.height - 400 * img.width| ≤ img.height) ∨
     ((thumbnailImage img).width = 400 ∧
       |((thumbnailImage img).height : ℚ) * img.width - 400 * img.height| ≤ img.width)) := by
  obtain ⟨w, h, content⟩ := img
  dsimp only at hw hh ⊢
  simp only [thumbnailImage, thumbnailSize]
  have hwq : (0 : ℚ) < w := by exact_mod_cast hw
  have hhq : (0 : ℚ) < h := by exact_mod_cast hh
  have haspos : (0 : ℚ) < (w : ℚ) / (h : ℚ) := div_pos hwq hhq
  split
  · rename_i hfit
    exact ⟨hfit.1, hfit.2, Or.inl ⟨rfl, rfl⟩⟩
  · rename_i hfit
    split
    · rename_i hle
      have ha1 : (w : ℚ) / (h : ℚ) ≤ 1 := by
        have h400 : (400 : ℚ) / 400 = 1 := by norm_num
        rw [h400] at hle
        exact hle
      have hnum : (0 : ℚ) < 400 * ((w : ℚ) / (h : ℚ)) := by positivity
      obtain ⟨hge1, hle2, hclose⟩ := round_aspect_bounds (400 * ((w : ℚ) / (h : ℚ)))
        (fun n => |(w : ℚ) / (h : ℚ) - (n : ℚ) / 400|) hnum
      set ra := round_aspect (400 * ((w : ℚ) / (h : ℚ)))
        (fun n => |(w : ℚ) / (h : ℚ) - (n : ℚ) / 400|) with hradef
      have hceil : ⌈400 * ((w : ℚ) / (h : ℚ))⌉ ≤ 400 := by
        rw [Int.ceil_le]
        push_cast
        nlinarith
      have hle400 : ra ≤ 400 := hle2.trans (by simp only [max_le_iff]; omega)
      refine ⟨Int.toNat_le.mpr (by exact_mod_cast hle400), by omega,
        Or.inr (Or.inl ⟨rfl, ?_⟩)⟩
      have hcast : ((ra.toNat : ℚ)) = (ra : ℚ) := by
        have h0 : (0 : ℤ) ≤ ra := le_trans zero_le_one hge1
        exact_mod_cast Int.toNat_of_nonneg h0
      rw [hcast]
      have key : (ra : ℚ) * h - 400 * w =
          ((ra : ℚ) - 400 * ((w : ℚ) / (h : ℚ))) * h := by
        field_simp
      rw [key, abs_mul, abs_of_pos hhq]
      calc |(ra : ℚ) - 400 * ((w : ℚ) / (h : ℚ))| * (h : ℚ)
          ≤ 1 * h := mul_le_mul_of_nonneg_right hclose hhq.le
        _ = h := one_mul _
    · rename_i hgt
      have ha1 : (1 : ℚ) < (w : ℚ) / (h : ℚ) := by
        have h400 : (400 : ℚ) / 400 = 1 := by norm_num
        rw [h400] at hgt
        exact lt_of_not_ge hgt
      have hnum : (0 : ℚ) < 400 / ((w : ℚ) / (h : ℚ)) := by positivity
      obtain ⟨hge1, hle2, hclose⟩ := round_aspect_bounds (400 / ((w : ℚ) / (h : ℚ)))
        (fun n => if n = 0 then 0 else |(w : ℚ) / (h : ℚ) - 400 / (n : ℚ)|) hnum
      set ra := round_aspect (400 / ((w : ℚ) / (h : ℚ)))
        (fun n => if n = 0 then 0 else |(w : ℚ) / (h : ℚ) - 400 / (n : ℚ)|) with hradef
      have hceil : ⌈400 / ((w : ℚ) / (h : ℚ))⌉ ≤ 400 := by
        rw [Int.ceil_le]
        push_cast
        rw [div_le_iff haspos]
        nlinarith
      have hle400 : ra ≤ 400 := hle2.trans (by simp only [max_le_iff]; omega)
      refine ⟨le_refl 400, Int.toNat_le.mpr (by exact_mod_cast hle400),
        Or.inr (Or.inr ⟨rfl, ?_⟩)⟩
      have hcast : ((ra.toNat : ℚ)) = (ra : ℚ) := by
        have h0 : (0 : ℤ) ≤ ra := le_trans zero_le_one hge1
        exact_mod_cast Int.toNat_of_nonneg h0
      rw [hcast]
      have key : (ra : ℚ) * w - 400 * h =
          ((ra : ℚ) - 400 / ((w : ℚ) / (h : ℚ))) * w := by
        field_simp
      rw [key, abs_mul, abs_of_pos hwq]
      calc |(ra : ℚ) - 400 / ((w : ℚ) / (h : ℚ))| * (w : ℚ)
          ≤ 1 * w := mul_le_mul_of_nonneg_right hclose hwq.le
        _ = w := one_mul _

theorem thumbnail_longest_side_and_aspect_witness :
    (thumbnailImage { width := 1000, height := 800, content := "generated" }).width ≤ 400 ∧
    (thumbnailImage { width := 1000, height := 800, content := "generated" }).height ≤ 400 :=
  have h := thumbnail_longest_side_and_aspect
    { width := 1000, height := 800, content := "generated" } (by decide) (by decide)
  ⟨h.1, h.2.1⟩

/- ### C5: fenced-code-block tolerance of the metadata parser -/

theorem containsSub_cons_ne {c : Char} (hc : c ≠ '`') (l : List Char) :
    containsSub ['`', '`', '`'] (c :: l) = containsSub ['`', '`', '`'] l := by
  have hb : ('`' == c) = false := by
    simp only [beq_eq_false_iff_ne, ne_eq]
    exact fun he => hc he.symm
  simp [containsSub, List.isPrefixOf, hb]

theorem containsSub_cons_false {d : Char} {x : List Char}
    (hx : containsSub ['`', '`', '`'] (d :: x) = false) :
    (['`', '`', '`'].isPrefixOf (d :: x)) = false ∧
    containsSub ['`', '`', '`'] x = false := by
  rw [containsSub, Bool.or_eq_false_iff] at hx
  exact hx

theorem containsSub_append_mid {x y : List Char} {c : Char} (hc : c ≠ '`')
    (hx : containsSub ['`', '`', '`'] x = false)
    (hy : containsSub ['`', '`', '`'] y = false) :
    containsSub ['`', '`', '`'] (x ++ c :: y) = false := by
  induction x with
  | nil => simpa [containsSub_cons_ne hc] using hy
  | cons d x ih =>
    obtain ⟨hx1, hx2⟩ := containsSub_cons_false hx
    have htail : containsSub ['`', '`', '`'] (x ++ c :: y) = false := ih hx2
    rw [List.cons_append, containsSub, Bool.or_eq_false_iff]
    refine ⟨?_, htail⟩
    have hcb : (c == '`') = false := by simpa using hc
    match x with
    | [] =>
      simp_all [List.isPrefixOf]
      exact fun _ h2 => absurd h2.symm hc
    | [e] =>
      simp_all [List.isPrefixOf]
      exact fun _ _ h => hc h.symm
    | e :: f :: x' =>
      simp_all [List.isPrefixOf]
      exact hx1

theorem notPrefix_of_clean {d : Char} {a' b : List Char}
    (hx : containsSub ['`', '`', '`'] ((d :: a') ++ ['`', '`']) = false) :
    (['`', '`', '`'].isPrefixOf ((d :: a') ++ (['`', '`', '`'] ++ b))) = false := by
  match a' with
  | [] =>
    have h1 := (containsSub_cons_false hx).1
    simp_all [List.isPrefixOf]
  | [e] =>
    have h1 := (containsSub_cons_false hx).1
    simp_all [List.isPrefixOf]
    exact h1
  | e :: f :: a'' =>
    have h1 := (containsSub_cons_false hx).1
    simp_all [List.isPrefixOf]
    exact h1

theorem splitGo_middle (b : List Char) :
    ∀ (a : List Char) (fuel : Nat) (acc : List Char),
      containsSub ['`', '`', '`'] (a ++ ['`', '`']) = false →
      (a ++ (['`', '`', '`'] ++ b)).length ≤ fuel →
      splitGo ['`', '`', '`'] fuel (a ++ (['`', '`', '`'] ++ b)) acc =
        (acc.reverse ++ a) :: splitGo ['`', '`', '`'] (fuel - (a.length + 1)) b [] := by
  intro a
  induction a with
  | nil =>
    intro fuel acc _ hlen
    match fuel with
    | 0 => simp at hlen
    | f + 1 =>
      simp only [List.nil_append]
      rw [show (['`', '`', '`'] ++ b) = '`' :: '`' :: '`' :: b from rfl, splitGo]
      rw [if_pos (by simp [List.isPrefixOf])]
      simp
  | cons d a' ih =>
    intro fuel acc hclean hlen
    match fuel with
    | 0 =>
      simp only [List.cons_append, List.length_cons] at hlen
      omega
    | f + 1 =>
      have hnp : (['`', '`', '`'].isPrefixOf (d :: (a' ++ (['`', '`', '`'] ++ b)))) = false := by
        have h0 := notPrefix_of_clean (b := b) hclean
        simpa using h0
      rw [List.cons_append, splitGo, if_neg (by simp only [hnp]; exact Bool.false_ne_true)]
      have hclean' : containsSub ['`', '`', '`'] (a' ++ ['`', '`']) = false :=
        (containsSub_cons_false (by simpa using hclean)).2
      have hlen' : (a' ++ (['`', '`', '`'] ++ b)).length ≤ f := by
        simp only [List.cons_append, List.nil_append, List.length_cons,
          List.length_append] at hlen ⊢
        omega
      rw [ih f (d :: acc) hclean' hlen']
      have hfe : f - (a'.length + 1) = f + 1 - ((d :: a').length + 1) := by
        simp only [List.length_cons]
        omega
      rw [hfe]
      simp

theorem splitOnL_fenced (a : List Char)
    (ha : containsSub ['`', '`', '`'] (a ++ ['`', '`']) = false) :
    splitOnL ['`', '`', '`'] (['`', '`', '`'] ++ (a ++ ['`', '`', '`'])) = [[], a, []] := by
  rw [splitOnL, if_neg (by simp)]
  have h1 := splitGo_middle (a ++ ['`', '`', '`']) []
    ((['`', '`', '`'] ++ (a ++ ['`', '`', '`'])).length) [] rfl (le_refl _)
  simp only [List.nil_append] at h1
  rw [h1]
  simp only [List.reverse_nil, List.nil_append, List.length_nil, Nat.zero_add]
  have h2 := splitGo_middle [] a
    ((['`', '`', '`'] ++ (a ++ ['`', '`', '`'])).length - 1) [] ha
    (by simp [List.length_append])
  simp only [List.append_nil, List.reverse_nil, List.nil_append] at h2
  rw [h2]
  have h3 : ∀ fu acc, splitGo ['`', '`', '`'] fu ([] : List Char) acc = [acc.reverse] := by
    intro fu acc
    rw [splitGo]
  rw [h3]
  simp

theorem dropWhile_len_le (p : Char → Bool) (l : List Char) :
    (l.dropWhile p).length ≤ l.length := by
  induction l with
  | nil => simp
  | cons c ls ih =>
    by_cases h : p c
    · rw [List.dropWhile_cons_of_pos h]
      exact ih.trans (by simp)
    · rw [List.dropWhile_cons_of_neg h]

theorem dropWhile_idem (p : Char → Bool) (l : List Char) :
    (l.dropWhile p).dropWhile p = l.dropWhile p := by
  induction l with
  | nil => simp
  | cons c ls ih =>
    by_cases h : p c
    · rw [List.dropWhile_cons_of_pos h]
      exact ih
    · rw [List.dropWhile_cons_of_neg h, List.dropWhile_cons_of_neg h]

theorem trimLeftL_cons_ws {c : Char} (h : isPyWs c = true) (l : List Char) :
    trimLeftL (c :: l) = trimLeftL l := by
  simp [trimLeftL, List.dropWhile_cons_of_pos h]

theorem trimLeftL_cons_nws {c : Char} (h : isPyWs c = false) (l : List Char) :
    trimLeftL (c :: l) = c :: l := by
  unfold trimLeftL
  exact List.dropWhile_cons_of_neg (by simp [h])

theorem trimRightL_append_ws {c : Char} (h : isPyWs c = true) (l : List Char) :
    trimRightL (l ++ [c]) = trimRightL l := by
  unfold trimRightL
  rw [List.reverse_append]
  simp only [List.reverse_singleton, List.singleton_append]
  rw [List.dropWhile_cons_of_pos h]

theorem trimRightL_append_nws {c : Char} (h : isPyWs c = false) (l : List Char) :
    trimRightL (l ++ [c]) = l ++ [c] := by
  unfold trimRightL
  rw [List.reverse_append]
  simp only [List.reverse_singleton, List.singleton_append]
  rw [List.dropWhile_cons_of_neg (by simp [h])]
  simp

theorem trimRightL_cons_nws {c : Char} (h : isPyWs c = false) (l : List Char) :
    trimRightL (c :: l) = c :: trimRightL l := by
  unfold trimRightL
  rw [show (c :: l).reverse = l.reverse ++ [c] by simp, List.dropWhile_append]
  split
  · rename_i hemp
    rw [List.dropWhile_cons_of_neg (by simp [h])]
    have : l.reverse.dropWhile isPyWs = [] := by
      rcases hx : l.reverse.dropWhile isPyWs with - | ⟨y, ys⟩
      · rfl
      · rw [hx] at hemp
        simp at hemp
    rw [this]
    simp
  · simp

theorem stripL_cons_ws {c : Char} (h : isPyWs c = true) (l : List Char) :
    stripL (c :: l) = stripL l := by
  simp [stripL, trimLeftL_cons_ws h]

theorem stripL_append_ws {c : Char} (h : isPyWs c = true) (l : List Char) :
    stripL (l ++ [c]) = stripL l := by
  unfold stripL trimLeftL
  rw [List.dropWhile_append]
  split
  · rename_i hemp
    have : l.dropWhile isPyWs = [] := by
      rcases hx : l.dropWhile isPyWs with - | ⟨y, ys⟩
      · rfl
      · rw [hx] at hemp
        simp at hemp
    rw [this, show ([c].dropWhile isPyWs) = [] by simp [List.dropWhile_cons_of_pos h]]
  · exact trimRightL_append_ws h _

theorem stripL_ends_nws {c d : Char} (hc : isPyWs c = false) (hd : isPyWs d = false)
    (l : List Char) : stripL (c :: (l ++ [d])) = c :: (l ++ [d]) := by
  unfold stripL
  rw [trimLeftL_cons_nws hc, show c :: (l ++ [d]) = (c :: l) ++ [d] from rfl,
    trimRightL_append_nws hd]

theorem trimLeftL_idem (l : List Char) : trimLeftL (trimLeftL l) = trimLeftL l :=
  dropWhile_idem isPyWs l

theorem trimRightL_idem (l : List Char) : trimRightL (trimRightL l) = trimRightL l := by
  unfold trimRightL
  rw [List.reverse_reverse, dropWhile_idem]

theorem stripL_idem (l : List Char) : stripL (stripL l) = stripL l := by
  unfold stripL
  rcases hx : trimLeftL l with - | ⟨c, r⟩
  · simp [trimRightL, trimLeftL]
  · have hfix : trimLeftL (c :: r) = c :: r := by
      rw [← hx]
      exact trimLeftL_idem l
    have hc : isPyWs c = false := by
      by_contra hcc
      have hcc' : isPyWs c = true := by
        rcases Bool.eq_false_or_eq_true (isPyWs c) with h | h
        · exact h
        · exact absurd h hcc
      have h1 : trimLeftL (c :: r) = trimLeftL r := trimLeftL_cons_ws hcc' r
      rw [h1] at hfix
      have hlen := congrArg List.length hfix
      have := dropWhile_len_le isPyWs r
      simp only [trimLeftL] at hlen this
      simp at hlen
      omega
    rw [trimRightL_cons_nws hc, trimLeftL_cons_nws hc, trimRightL_cons_nws hc,
      trimRightL_idem]

theorem isPyWs_of_isJsonWs {c : Char} (h : isJsonWs c = true) : isPyWs c = true := by
  simp only [isJsonWs, Bool.or_eq_true, decide_eq_true_eq] at h
  rcases h with ((h | h) | h) | h <;> subst h <;> rfl

theorem trimLeftL_of_skipWs {l : List Char} {c : Char} {r : List Char}
    (h : skipWsL l = c :: r) (hc : isPyWs c = false) : trimLeftL l = c :: r := by
  induction l with
  | nil => simp [skipWsL] at h
  | cons d l' ih =>
    by_cases hd : isJsonWs d = true
    · rw [skipWsL, List.dropWhile_cons_of_pos hd] at h
      rw [trimLeftL_cons_ws (isPyWs_of_isJsonWs hd)]
      exact ih h
    · rw [skipWsL, List.dropWhile_cons_of_neg hd] at h
      injection h with h1 h2
      subst h1
      subst h2
      exact trimLeftL_cons_nws hc _

theorem parseJVal_obj_head {f : Nat} {l : List Char} {kvs : List (String × PyJson)}
    {rest : List Char} (h : parseJVal f l = some (.obj kvs, rest)) :
    ∃ r, l = '{' :: r := by
  match f, l with
  | 0, l => simp [parseJVal] at h
  | _ + 1, [] => simp [parseJVal] at h
  | f + 1, c :: cs =>
    rw [parseJVal] at h
    by_cases h1 : c = '{'
    · exact ⟨cs, by rw [h1]⟩
    · exfalso
      rw [if_neg h1] at h
      split_ifs at h <;>
        (try simp only [parseJNum] at h) <;>
        (repeat' split at h) <;>
        simp_all [Option.map_eq_some']

theorem jsonLoads_obj_head {s : String} {kvs : List (String × PyJson)}
    (h : jsonLoads s = some (.obj kvs)) : ∃ r, skipWsL s.data = '{' :: r := by
  simp only [jsonLoads] at h
  rcases hp : parseJVal ((skipWsL s.data).length + 1) (skipWsL s.data) with - | ⟨v, rest⟩ <;>
    rw [hp] at h
  · simp at h
  · dsimp only at h
    split_ifs at h
    injection h with hv
    subst hv
    exact parseJVal_obj_head hp

theorem containsSub_triple_of_str {t : String} (h : containsStr "```" t = false) :
    containsSub ['`', '`', '`'] t.data = false := by
  simpa [containsStr, show ("```" : String).data = ['`', '`', '`'] from rfl] using h

/-- The text handed to `json.loads` after unwrapping a fenced block equals
the stripped response body. -/
theorem extract_of_fenced (t : String) (pre : List Char)
    (hpre : ∀ L, containsSub ['`', '`', '`'] L = false →
      containsSub ['`', '`', '`'] (pre ++ L) = false)
    (hfence : containsSub ['`', '`', '`'] t.data = false)
    (w : String)
    (hw : w.data = ['`', '`', '`'] ++ ((pre ++ (t.data ++ ['\n'])) ++ ['`', '`', '`']))
    (hid : stripL w.data = w.data)
    (hpw : ∀ piece, piece = pre ++ (t.data ++ ['\n']) →
      (if (['j', 's', 'o', 'n'] : List Char).isPrefixOf piece then piece.drop 4 else piece) =
        '\n' :: (t.data ++ ['\n']) ∨
      (if (['j', 's', 'o', 'n'] : List Char).isPrefixOf piece then piece.drop 4 else piece) =
        t.data ++ ['\n']) :
    extract_metadata_text w = ⟨stripL t.data⟩ := by
  have hA : containsSub ['`', '`', '`'] ((pre ++ (t.data ++ ['\n'])) ++ ['`', '`']) = false := by
    have hy : containsSub ['`', '`', '`'] (['`', '`'] : List Char) = false := rfl
    have h5 : containsSub ['`', '`', '`'] (t.data ++ '\n' :: ['`', '`']) = false :=
      containsSub_append_mid (by decide) hfence hy
    have h6 : containsSub ['`', '`', '`'] ((t.data ++ ['\n']) ++ ['`', '`']) = false := by
      simpa [List.append_assoc] using h5
    have h7 := hpre _ h6
    simpa [List.append_assoc] using h7
  unfold extract_metadata_text
  rw [hid, hw]
  dsimp only
  rw [if_pos (by simp [List.isPrefixOf])]
  rw [splitOnL_fenced _ hA]
  rw [show (([[], pre ++ (t.data ++ ['\n']), []] : List (List Char)).getD 1 []) =
    pre ++ (t.data ++ ['\n']) from rfl]
  rcases hpw _ rfl with hgo | hgo <;> rw [hgo]
  · rw [stripL_cons_ws (show isPyWs '\n' = true from rfl),
      stripL_append_ws (show isPyWs '\n' = true from rfl)]
  · rw [stripL_append_ws (show isPyWs '\n' = true from rfl)]

/-- C5 (amended): for every JSON object text `t` that does not itself contain
the fence marker ``` , the metadata extraction recovers the same parsed
object from the response wrapped in a fenced code block — with or without
the `json` language tag — as from the unwrapped response. (The
counterexample shows the restriction on ``` is necessary.) -/
theorem extract_metadata_fence_invariant (t : String) (kvs : List (String × PyJson))
    (hparse : jsonLoads t = some (.obj kvs))
    (hfence : containsStr "```" t = false) :
    extractAndLoad (wrapFence t) = extractAndLoad t ∧
    extractAndLoad (wrapFenceJson t) = extractAndLoad t := by
  have hf : containsSub ['`', '`', '`'] t.data = false := containsSub_triple_of_str hfence
  obtain ⟨r0, hr0⟩ := jsonLoads_obj_head hparse
  have htl : trimLeftL t.data = '{' :: r0 := trimLeftL_of_skipWs hr0 rfl
  have hst : stripL t.data = '{' :: trimRightL r0 := by
    unfold stripL
    rw [htl, trimRightL_cons_nws (show isPyWs '\x7b' = false from rfl)]
  have hplain : extract_metadata_text t = ⟨stripL t.data⟩ := by
    unfold extract_metadata_text
    dsimp only
    rw [hst]
    rw [if_neg (by simp [List.isPrefixOf])]
    rw [← hst, stripL_idem]
  have hw1 : (wrapFence t).data =
      ['`', '`', '`'] ++ (((['\n'] : List Char) ++ (t.data ++ ['\n'])) ++ ['`', '`', '`']) := by
    simp [wrapFence, data_append]
  have hshape1 : (wrapFence t).data =
      '`' :: ((['`', '`', '\n'] ++ (t.data ++ ['\n', '`', '`'])) ++ ['`']) := by
    simp [wrapFence, data_append]
  have hid1 : stripL (wrapFence t).data = (wrapFence t).data := by
    rw [hshape1]
    exact stripL_ends_nws (show isPyWs '`' = false from rfl) (show isPyWs '`' = false from rfl) _
  have hext1 : extract_metadata_text (wrapFence t) = ⟨stripL t.data⟩ := by
    refine extract_of_fenced t ['\n'] ?_ hf (wrapFence t) hw1 hid1 ?_
    · intro L hL
      rw [show (['\n'] : List Char) ++ L = '\n' :: L from rfl,
        containsSub_cons_ne (by decide)]
      exact hL
    · intro piece hp
      left
      rw [hp, if_neg (by simp [List.isPrefixOf])]
      rfl
  have hw2 : (wrapFenceJson t).data =
      ['`', '`', '`'] ++ (((['j', 's', 'o', 'n', '\n'] : List Char) ++ (t.data ++ ['\n'])) ++ ['`', '`', '`']) := by
    simp [wrapFenceJson, data_append]
  have hshape2 : (wrapFenceJson t).data =
      '`' :: ((['`', '`', 'j', 's', 'o', 'n', '\n'] ++ (t.data ++ ['\n', '`', '`'])) ++ ['`']) := by
    simp [wrapFenceJson, data_append]
  have hid2 : stripL (wrapFenceJson t).data = (wrapFenceJson t).data := by
    rw [hshape2]
    exact stripL_ends_nws (show isPyWs '`' = false from rfl) (show isPyWs '`' = false from rfl) _
  have hext2 : extract_metadata_text (wrapFenceJson t) = ⟨stripL t.data⟩ := by
    refine extract_of_fenced t ['j', 's', 'o', 'n', '\n'] ?_ hf (wrapFenceJson t) hw2 hid2 ?_
    · intro L hL
      rw [show (['j', 's', 'o', 'n', '\n'] : List Char) ++ L =
        'j' :: 's' :: 'o' :: 'n' :: '\n' :: L from rfl]
      rw [containsSub_cons_ne (by decide), containsSub_cons_ne (by decide),
        containsSub_cons_ne (by decide), containsSub_cons_ne (by decide),
        containsSub_cons_ne (by decide)]
      exact hL
    · intro piece hp
      left
      rw [hp, if_pos (by simp [List.isPrefixOf])]
      rfl
  unfold extractAndLoad
  rw [hplain, hext1, hext2]
  exact ⟨rfl, rfl⟩

theorem extract_metadata_fence_invariant_witness :
    extractAndLoad (wrapFence "\x7b\"title\": \"t\"\x7d") =
      extractAndLoad "\x7b\"title\": \"t\"\x7d" ∧
    extractAndLoad (wrapFenceJson "\x7b\"title\": \"t\"\x7d") =
      extractAndLoad "\x7b\"title\": \"t\"\x7d" :=
  extract_metadata_fence_invariant "\x7b\"title\": \"t\"\x7d"
    [("title", .str "t")] rfl rfl

/-- C5 (counterexample): a JSON object text whose string content contains
the fence marker ``` parses fine unwrapped, but once wrapped in a fenced
block the extraction cuts the text at the inner marker and `json.loads`
fails — the two results differ, refuting the claim for arbitrary JSON
object texts. -/
theorem extract_metadata_fence_counterexample :
    extractAndLoad "\x7b\"title\": \"```\"\x7d" =
      some (.obj [("title", .str "```")]) ∧
    extractAndLoad (wrapFenceJson "\x7b\"title\": \"```\"\x7d") = none := by
  constructor <;> rfl
